import Mathlib

/-
Verification of the moby image-build tool against its specification.

The Go sources are shallowly embedded: pure data and control flow are
translated to Lean functions; calls into the Docker engine, the file
system and the crypto library are abstracted as explicit parameters, and
the sequence of external actions a function performs is returned as an
explicit event trace.
-/

set_option maxRecDepth 4000

namespace MobyTool

/-! ## Image tar assembly (mobyimage source file)

Embedding of the `exclude` / `replace` tables, `tarPrefix` and the
filtering loop of `ImageTar`.  A tar entry is modelled by its header
name, mode and size together with its content bytes (as a string, the
source copies them opaquely with `io.Copy`). -/

/-- One tar entry: header name, mode, declared size, and content bytes. -/
structure TarEntry where
  name : String
  mode : Int
  size : Nat
  content : String
deriving Repr, DecidableEq

/-- The fixed exclusion table `exclude` of the source: paths read and
discarded, never written to the output archive. -/
def exclude (name : String) : Bool :=
  name == ".dockerenv" || name == "Dockerfile" || name == "dev/console" ||
  name == "dev/pts" || name == "dev/shm" || name == "etc/hostname"

/-- Replacement content for `etc/hosts` from the `replace` table. -/
def etcHostsContent : String :=
  "127.0.0.1       localhost\n::1     localhost ip6-localhost ip6-loopback\nfe00::0 ip6-localnet\nff00::0 ip6-mcastprefix\nff02::1 ip6-allnodes\nff02::2 ip6-allrouters\n"

/-- Replacement content for `etc/resolv.conf` from the `replace` table. -/
def etcResolvContent : String :=
  "nameserver 8.8.8.8\nnameserver 8.8.4.4\nnameserver 2001:4860:4860::8888\nnameserver 2001:4860:4860::8844\n"

/-- The fixed replacement table `replace` of the source.  A Go map lookup
returns the zero value `""` for a missing key, which is exactly how the
source tests membership (`replace[hdr.Name] != ""`). -/
def replaceContent (name : String) : String :=
  if name == "etc/hosts" then etcHostsContent
  else if name == "etc/resolv.conf" then etcResolvContent
  else ""

/-- The per-entry filtering loop of `ImageTar` (the `for` loop over the
exported container tar): excluded names are dropped (their bytes are read
and discarded), names in the replacement table are emitted with the fixed
replacement content and the header size set to its length, and all other
entries are passed through with only the name prefixed.  `pfx` is the
`prefix` argument of `ImageTar`. -/
def imageTarEntries (pfx : String) : List TarEntry → List TarEntry
  | [] => []
  | e :: rest =>
    if exclude e.name then
      imageTarEntries pfx rest
    else if replaceContent e.name != "" then
      { e with name := pfx ++ e.name,
               size := (replaceContent e.name).length,
               content := replaceContent e.name } :: imageTarEntries pfx rest
    else
      { e with name := pfx ++ e.name } :: imageTarEntries pfx rest

/-! ### tarPrefix

`tarPrefix` writes one directory header per intermediate path component.
Go string indexing `s[i]` panics when `i` is out of range; the embedding
makes that partiality explicit with a dedicated result constructor. -/

/-- Result of running `tarPrefix`: the list of directory headers written,
an error return, or a Go runtime panic from an out-of-range string index. -/
inductive TarPrefixResult where
  | ok (headers : List String)
  | err (msg : String)
  | indexPanic
deriving Repr, DecidableEq

/-- Go `strings.Split` on a one-character separator, over character
lists. -/
def splitOnChar (c : Char) : List Char → List (List Char)
  | [] => [[]]
  | a :: t =>
    if a = c then [] :: splitOnChar c t
    else
      match splitOnChar c t with
      | [] => [[a]]
      | h :: t2 => (a :: h) :: t2

/-- The header names written by the `strings.Split` loop of `tarPrefix`:
the cumulative joins of the path components of `p`. -/
def tarPrefixHeaders (p : String) : List String :=
  (List.range (splitOnChar '/' p.toList).length).map
    (fun i =>
      (List.intercalate ['/'] ((splitOnChar '/' p.toList).take (i + 1))).asString)

/-- `tarPrefix` of the source.  The checks appear in source order: empty
path, trailing-slash check via `path[len(path)-1]`, then — after dropping
the trailing slash with `path[:len(path)-1]` (rendered on the character
list; the source's paths are ASCII, so byte and character slicing
coincide) — the leading-slash check via `path[0]`, which in Go panics
when the remaining path is empty. -/
def tarPrefix (path : String) : TarPrefixResult :=
  if path = "" then .ok []
  else if path.toList.getLast? != some '/' then
    .err ("path does not end with /: " ++ path)
  else
    let p := path.toList.dropLast.asString
    match p.toList.get? 0 with
    | none => .indexPanic
    | some c =>
      if c = '/' then .err ("path should be relative: " ++ p)
      else .ok (tarPrefixHeaders p)

/-- The early-return guard of `ImageTar` on its path-prefix argument
(`prefix != "" && prefix[len(prefix)-1] != byte('/')`); when this is
false, `ImageTar` goes on to call `tarPrefix` on that argument. -/
def imageTarPrefixGuard (pfx : String) : Bool :=
  pfx != "" && pfx.toList.getLast? != some '/'

/-! ### ImageTar container creation with pull-and-retry

`ImageTar` obtains a container from the engine with `dockerCreate`; on an
image-not-found error (detected by `strings.Contains(err.Error(), "No
such image")`) it pulls the image and retries the creation once.  The
engine is abstracted by the results of the at-most-two creation attempts
and the at-most-one pull, and the embedding returns the engine actions
performed, in order, alongside the result. -/

/-- Go `strings.Contains s sub`: `sub` occurs as a substring of `s`. -/
def goStringContains (s sub : String) : Bool :=
  decide (sub.toList <:+: s.toList)

/-- One engine action performed during the creation phase of `ImageTar`. -/
inductive DockerEvent where
  | create
  | pull
deriving Repr, DecidableEq

/-- The container-creation phase of `ImageTar` (from the first
`dockerCreate` up to having a container id): `create1` is the result of
the first creation attempt, `pullRes` the result of `dockerPull` should
it run, `create2` the result of the retried creation should it run.
Returns the container id or the error `ImageTar` surfaces, together with
the engine actions performed. -/
def imageTarCreatePhase (image : String) (create1 : Except String String)
    (pullRes : Except String Unit) (create2 : Except String String) :
    Except String String × List DockerEvent :=
  match create1 with
  | .ok container => (.ok container, [.create])
  | .error e =>
    if goStringContains e "No such image" then
      match pullRes with
      | .error pe =>
        (.error ("Could not pull image " ++ image ++ ": " ++ pe), [.create, .pull])
      | .ok _ =>
        match create2 with
        | .error e2 =>
          (.error ("Failed to docker create image " ++ image ++ ": " ++ e2),
           [.create, .pull, .create])
        | .ok container => (.ok container, [.create, .pull, .create])
    else
      (.error ("Failed to create docker image " ++ image ++ ": " ++ e), [.create])

/-! ## Output dispatcher (`output.go`)

`outFuns` maps a format name to a converter; `Formats` first runs
`ValidateFormats` over the whole requested list and only then invokes the
converters.  Converters and the prerequisite-image builder are external
actions, abstracted as parameters returning success or an error; the
embedding again returns the trace of actions performed. -/

/-- The format names registered in the `outFuns` table. -/
def outFunsNames : List String :=
  ["kernel+initrd", "tar-kernel-initrd", "iso-bios", "iso-efi", "raw",
   "gcp", "qcow2", "vhd", "dynamic-vhd", "vmdk", "rpi3"]

/-- `outFuns[o] == nil` in the source is the negation of this membership
test. -/
def knownFormat (o : String) : Bool := outFunsNames.contains o

/-- The `prereq` table: prerequisite LinuxKit image per format, with the
Go map's zero value `""` for formats that have none. -/
def prereqTable (o : String) : String :=
  if o == "raw" then "mkimage" else if o == "qcow2" then "mkimage" else ""

/-- One external action performed by the output dispatcher. -/
inductive OutEvent where
  | ensured (img : String)
  | converted (fmt : String)
deriving Repr, DecidableEq

/-- External collaborators of the output dispatcher: the prerequisite
builder `ensureLinuxkitImage` and the converter bodies of `outFuns`. -/
structure OutputEnv where
  ensureImage : String → Except String Unit
  converter : String → Except String Unit

/-- `ensurePrereq` of the source: build the prerequisite image when the
format has one. -/
def ensurePrereqRun (env : OutputEnv) (o : String) :
    Except String Unit × List OutEvent :=
  let p := prereqTable o
  if p != "" then
    match env.ensureImage p with
    | .error e => (.error e, [.ensured p])
    | .ok _ => (.ok (), [.ensured p])
  else (.ok (), [])

/-- `ValidateFormats` of the source: for each requested name, fail on an
unknown format, otherwise ensure its prerequisite; the first failure
stops the loop. -/
def validateFormatsRun (env : OutputEnv) : List String →
    Except String Unit × List OutEvent
  | [] => (.ok (), [])
  | o :: rest =>
    if !knownFormat o then
      (.error ("Unknown format type " ++ o), [])
    else
      match ensurePrereqRun env o with
      | (.error e, tr) => (.error ("Failed to set up format type " ++ o ++ ": " ++ e), tr)
      | (.ok _, tr) =>
        let (res, tr2) := validateFormatsRun env rest
        (res, tr ++ tr2)

/-- The converter loop of `Formats`: run each converter in order, stopping
at the first error. -/
def runConverters (env : OutputEnv) : List String →
    Except String Unit × List OutEvent
  | [] => (.ok (), [])
  | o :: rest =>
    match env.converter o with
    | .error e => (.error e, [.converted o])
    | .ok _ =>
      let (res, tr) := runConverters env rest
      (res, .converted o :: tr)

/-- `Formats` of the source: validate the whole requested list first, and
only on success invoke the converters. -/
def formatsRun (env : OutputEnv) (fmts : List String) :
    Except String Unit × List OutEvent :=
  match validateFormatsRun env fmts with
  | (.error e, tr) => (.error e, tr)
  | (.ok _, tr) =>
    let (res, tr2) := runConverters env fmts
    (res, tr ++ tr2)

/-! ## Build cache (`linuxkit.go` part of the sources)

`ensureLinuxkitImage` derives a cache file-name stem from the SHA-256
hash of the defining YAML and treats the cache as hit only when all three
sibling files exist.  The file system is abstracted as an existence
predicate `String → Bool` (the result of `os.Stat` on each name), the
SHA-256 primitive from the crypto library as a hex-digest function
parameter, and the inner build pipeline (`NewConfig`/`Build`/
`tarToInitrd`) as a function from the YAML to a kernel/initrd/cmdline
triple or an error. -/

/-- The `linuxkitYaml` table of the source, keyed by artifact name, with
the Go map's zero value `""` for missing keys. -/
def linuxkitYaml (name : String) : String :=
  if name == "mkimage" then
    "\nkernel:\n  image: \"linuxkit/kernel:4.9.x\"\n  cmdline: \"console=ttyS0\"\ninit:\n  - linuxkit/init:14a38303ee9dcb4541c00e2b87404befc1ba2083\n  - linuxkit/runc:a0f2894e50bacbd1ff82be41edff8b8e06e0b161\n  - linuxkit/containerd:389e67c3c1fc009c1315f32b3e2b6659691a3ad4\nonboot:\n  - name: mkimage\n    image: \"linuxkit/mkimage:5ad60299be03008f29c5caec3c5ea4ac0387aae6\"\n  - name: poweroff\n    image: \"linuxkit/poweroff:a8f1e4ad8d459f1fdaad9e4b007512cb3b504ae8\"\ntrust:\n  org:\n    - linuxkit\n"
  else ""

/-- `imageFilename` of the source: the cache stem
`MobyDir/linuxkit/<name>-<hex of sha256(yaml)>`.  `sha256hex` abstracts
`fmt.Sprintf("%x", sha256.Sum256(...))` from the crypto library;
`filepath.Join` is rendered as slash concatenation. -/
def imageFilename (sha256hex : String → String) (mobyDir name : String) : String :=
  mobyDir ++ "/linuxkit/" ++ name ++ "-" ++ sha256hex (linuxkitYaml name)

/-- The three-sibling existence check of `ensureLinuxkitImage`
(`err1 == nil && err2 == nil && err3 == nil`). -/
def cacheHit (fs : String → Bool) (filename : String) : Bool :=
  fs (filename ++ "-kernel") && fs (filename ++ "-initrd.img") &&
  fs (filename ++ "-cmdline")

/-- `writeKernelInitrd` of the source: afterwards the three sibling files
exist (each written by `ioutil.WriteFile`). -/
def writeKernelInitrd (fs : String → Bool) (filename : String) : String → Bool :=
  fun f =>
    f == filename ++ "-kernel" || f == filename ++ "-initrd.img" ||
    f == filename ++ "-cmdline" || fs f

/-- `ensureLinuxkitImage` of the source: return immediately when all
three cache files exist; otherwise run the build pipeline on the defining
YAML and write the three files.  The Boolean records whether the build
pipeline ran. -/
def ensureLinuxkitImage (sha256hex : String → String) (mobyDir : String)
    (build : String → Except String (String × String × String))
    (fs : String → Bool) (name : String) :
    Except String (String → Bool) × Bool :=
  let filename := imageFilename sha256hex mobyDir name
  if cacheHit fs filename then (.ok fs, false)
  else
    match build (linuxkitYaml name) with
    | .error e => (.error e, true)
    | .ok _ => (.ok (writeKernelInitrd fs filename), true)

/-! ## Configuration schema (`schema.go` part of the sources)

The JSON-Schema (draft-04) string of the source, transcribed definition
by definition into a validator over a JSON value type.  Draft-04
semantics as used here: a `"type"` keyword constrains the value's kind;
`"properties"` constrains each listed key when present;
`"additionalProperties": false` rejects any key not listed in
`"properties"`; absence of `"additionalProperties"` leaves unlisted keys
unconstrained; `"required"` lists keys that must be present.  Note that
the source's `override` definition declares properties `destination` and
`source` and — unlike every other object definition in the schema — has
no `"additionalProperties": false`. -/

/-- A JSON value (YAML input is converted to JSON before validation). -/
inductive Json where
  | null
  | bool (b : Bool)
  | num (n : Int)
  | str (s : String)
  | arr (xs : List Json)
  | obj (fields : List (String × Json))

/-- Does the value satisfy `{"type": "string"}`? -/
def isStringJ : Json → Bool
  | .str _ => true
  | _ => false

/-- Does the value satisfy `{"type": "boolean"}`? -/
def isBoolJ : Json → Bool
  | .bool _ => true
  | _ => false

/-- Does the value satisfy `{"type": "integer"}`? -/
def isIntJ : Json → Bool
  | .num _ => true
  | _ => false

/-- The `strings` definition: an array of strings. -/
def checkStrings : Json → Bool
  | .arr xs => xs.all isStringJ
  | _ => false

/-- The `kernel` definition: a closed object with optional string
properties `image` and `cmdline`. -/
def checkKernel : Json → Bool
  | .obj fields =>
    fields.all fun kv =>
      if kv.1 == "image" then isStringJ kv.2
      else if kv.1 == "cmdline" then isStringJ kv.2
      else false
  | _ => false

/-- The `file` definition: a closed object of the seven listed optional
properties. -/
def checkFile : Json → Bool
  | .obj fields =>
    fields.all fun kv =>
      if kv.1 == "path" then isStringJ kv.2
      else if kv.1 == "directory" then isBoolJ kv.2
      else if kv.1 == "symlink" then isStringJ kv.2
      else if kv.1 == "contents" then isStringJ kv.2
      else if kv.1 == "source" then isStringJ kv.2
      else if kv.1 == "optional" then isBoolJ kv.2
      else if kv.1 == "mode" then isStringJ kv.2
      else false
  | _ => false

/-- The `files` definition: an array of `file` objects. -/
def checkFiles : Json → Bool
  | .arr xs => xs.all checkFile
  | _ => false

/-- The `trust` definition: a closed object with `image` and `org` string
arrays. -/
def checkTrust : Json → Bool
  | .obj fields =>
    fields.all fun kv =>
      if kv.1 == "image" then checkStrings kv.2
      else if kv.1 == "org" then checkStrings kv.2
      else false
  | _ => false

/-- The `mount` definition: a closed object with `destination`, `type`,
`source` strings and `options` string array. -/
def checkMount : Json → Bool
  | .obj fields =>
    fields.all fun kv =>
      if kv.1 == "destination" then isStringJ kv.2
      else if kv.1 == "type" then isStringJ kv.2
      else if kv.1 == "source" then isStringJ kv.2
      else if kv.1 == "options" then checkStrings kv.2
      else false
  | _ => false

/-- The `mounts` definition: an array of `mount` objects. -/
def checkMounts : Json → Bool
  | .arr xs => xs.all checkMount
  | _ => false

/-- The per-property schema of the `image` definition. -/
def imagePropOK (key : String) (v : Json) : Bool :=
  if key == "name" then isStringJ v
  else if key == "image" then isStringJ v
  else if key == "capabilities" then checkStrings v
  else if key == "mounts" then checkMounts v
  else if key == "binds" then checkStrings v
  else if key == "tmpfs" then checkStrings v
  else if key == "command" then checkStrings v
  else if key == "env" then checkStrings v
  else if key == "cwd" then isStringJ v
  else if key == "net" then isStringJ v
  else if key == "pid" then isStringJ v
  else if key == "ipc" then isStringJ v
  else if key == "uts" then isStringJ v
  else if key == "readonly" then isBoolJ v
  else if key == "maskedPaths" then checkStrings v
  else if key == "readonlyPaths" then checkStrings v
  else if key == "uid" then isIntJ v
  else if key == "gid" then isIntJ v
  else if key == "additionalGids" then
    (match v with | .arr xs => xs.all isIntJ | _ => false)
  else if key == "noNewPrivileges" then isBoolJ v
  else if key == "hostname" then isStringJ v
  else if key == "oomScoreAdj" then isIntJ v
  else if key == "disableOOMKiller" then isBoolJ v
  else if key == "rootfsPropagation" then isStringJ v
  else if key == "cgroupsPath" then isStringJ v
  else if key == "sysctl" then
    (match v with | .arr xs => xs.all checkStrings | _ => false)
  else if key == "rlimits" then checkStrings v
  else false

/-- The `image` definition: a closed object, `name` and `image`
required. -/
def checkImage : Json → Bool
  | .obj fields =>
    fields.all (fun kv => imagePropOK kv.1 kv.2) &&
    fields.any (fun kv => kv.1 == "name") &&
    fields.any (fun kv => kv.1 == "image")
  | _ => false

/-- The `images` definition: an array of `image` objects. -/
def checkImages : Json → Bool
  | .arr xs => xs.all checkImage
  | _ => false

/-- The `override` definition of the source schema: an object whose
`destination` and `source` properties, when present, must be strings.
There is no `"additionalProperties": false` in this definition, so any
other key is left unconstrained. -/
def checkOverride : Json → Bool
  | .obj fields =>
    fields.all fun kv =>
      if kv.1 == "destination" then isStringJ kv.2
      else if kv.1 == "source" then isStringJ kv.2
      else true
  | _ => false

/-- The `overrides` definition: an array of `override` objects. -/
def checkOverrides : Json → Bool
  | .arr xs => xs.all checkOverride
  | _ => false

/-- The per-property schema of the top-level object. -/
def topPropOK (key : String) (v : Json) : Bool :=
  if key == "kernel" then checkKernel v
  else if key == "init" then checkStrings v
  else if key == "onboot" then checkImages v
  else if key == "services" then checkImages v
  else if key == "trust" then checkTrust v
  else if key == "files" then checkFiles v
  else if key == "overrides" then checkOverrides v
  else false

/-- Validation of a whole configuration against the source schema: the
top level carries `"additionalProperties": false` and the seven listed
properties (no `"type"` keyword, so per draft-04 the object keywords
constrain only object values). -/
def validateMobyConfig : Json → Bool
  | .obj fields => fields.all fun kv => topPropOK kv.1 kv.2
  | _ => true

/-! ## Config model and OCI synthesis

The configuration source file (`config.go`, with the `Image` structure,
`NewConfig`, `ApplyOverride` and `ConfigInspectToOCI`) is not among the
provided sources — only its test file is.  The definitions in this
section are therefore modelled from the specification (§3, §4.2, §4.4),
shaped to match how the test file uses them. -/

/-- Modelled from the spec: the `Image` declaration of the missing
`config.go`.  Optional list fields are pointers in the source (the test
writes `Capabilities: &yamlCaps`), so "absent" (`nil`) is distinguishable
from "present but empty"; `cwd` is a plain string whose zero value `""`
means absent. -/
structure Image where
  name : String := ""
  image : String := ""
  capabilities : Option (List String) := none
  command : Option (List String) := none
  env : Option (List String) := none
  cwd : String := ""
deriving Repr, DecidableEq

/-- Modelled from the spec: the fixed standard OCI capability set that
synthesized capability strings are validated against (§4.4: "drawn from
the fixed standard set"). -/
def ociCapabilities : List String :=
  ["CAP_AUDIT_CONTROL", "CAP_AUDIT_READ", "CAP_AUDIT_WRITE",
   "CAP_BLOCK_SUSPEND", "CAP_CHOWN", "CAP_DAC_OVERRIDE",
   "CAP_DAC_READ_SEARCH", "CAP_FOWNER", "CAP_FSETID", "CAP_IPC_LOCK",
   "CAP_IPC_OWNER", "CAP_KILL", "CAP_LEASE", "CAP_LINUX_IMMUTABLE",
   "CAP_MAC_ADMIN", "CAP_MAC_OVERRIDE", "CAP_MKNOD", "CAP_NET_ADMIN",
   "CAP_NET_BIND_SERVICE", "CAP_NET_BROADCAST", "CAP_NET_RAW",
   "CAP_SETGID", "CAP_SETFCAP", "CAP_SETPCAP", "CAP_SETUID",
   "CAP_SYS_ADMIN", "CAP_SYS_BOOT", "CAP_SYS_CHROOT", "CAP_SYS_MODULE",
   "CAP_SYS_NICE", "CAP_SYS_PACCT", "CAP_SYS_PTRACE", "CAP_SYS_RAWIO",
   "CAP_SYS_RESOURCE", "CAP_SYS_TIME", "CAP_SYS_TTY_CONFIG",
   "CAP_SYSLOG", "CAP_WAKE_ALARM"]

/-- Modelled from the spec: field-level precedence for an optional
(pointer) field — the YAML value wins if explicitly present (even an
empty list), otherwise the label fragment's value, otherwise the built-in
default (§4.4). -/
def mergeOpt (yamlF labelF : Option (List String)) (dflt : List String) :
    List String :=
  match yamlF with
  | some v => v
  | none =>
    match labelF with
    | some v => v
    | none => dflt

/-- Modelled from the spec: field-level precedence for a plain string
field, whose zero value `""` means absent. -/
def mergeString (yamlF labelF dflt : String) : String :=
  if yamlF != "" then yamlF else if labelF != "" then labelF else dflt

/-- The process parameters of the synthesized OCI runtime spec that the
test file inspects. -/
structure OCIProcess where
  cwd : String
  capabilities : List String
  env : List String
  args : List String
deriving Repr, DecidableEq

/-- Modelled from the spec: the built-in default capability list applied
when neither the YAML nor the label declares one (§3 requires every
synthesized capability to lie in the standard set). -/
def defaultCapabilities : List String := []

/-- Modelled from the spec: `ConfigInspectToOCI` / `Synthesize` (§4.4) —
merge each field by the YAML-first precedence, then validate every
effective capability against the standard set; on the first invalid
entry fail with an error naming the image and the offending string, and
return no spec.  The label fragment is taken already decoded (§4.3). -/
def ConfigInspectToOCI (yaml label : Image) :
    Except (String × String) OCIProcess :=
  let caps := mergeOpt yaml.capabilities label.capabilities defaultCapabilities
  match caps.find? (fun c => !(ociCapabilities.contains c)) with
  | some bad => .error (yaml.name, bad)
  | none =>
    .ok { cwd := mergeString yaml.cwd label.cwd "/"
          capabilities := caps
          env := mergeOpt yaml.env label.env []
          args := mergeOpt yaml.command label.command [] }

/-- Modelled from the spec: one override rule `{source, substitute}`
(§3). -/
structure OverrideRule where
  source : String
  substitute : String
deriving Repr, DecidableEq

/-- Modelled from the spec: the kernel section of a config. -/
structure KernelConfig where
  image : String := ""
  cmdline : String := ""
deriving Repr, DecidableEq

/-- Modelled from the spec: the typed configuration tree (§3), restricted
to the fields the override engine touches. -/
structure Config where
  kernel : KernelConfig := {}
  init : List String := []
  onboot : List Image := []
  services : List Image := []
  overrides : List OverrideRule := []
deriving Repr, DecidableEq

/-- Index of the last occurrence of a character in a character list. -/
def lastIdxOf (c : Char) (l : List Char) : Option Nat :=
  ((l.enum.filter (fun p => p.2 = c)).map (fun p => p.1)).getLast?

/-- Modelled from the spec: the repository portion of an image reference
(§3, §4.2) — the reference with any digest (everything from the first
`@`) and any tag (a `:` segment occurring after the last `/`) removed. -/
def imageRepo (ref : String) : String :=
  let cs := (ref.toList).takeWhile (fun c => c ≠ '@')
  match lastIdxOf ':' cs with
  | none => cs.asString
  | some i =>
    match lastIdxOf '/' cs with
    | none => (cs.take i).asString
    | some j => if j < i then (cs.take i).asString else cs.asString

/-- Modelled from the spec: apply the override rules to one image
reference — the first rule whose `source` equals the reference's
repository portion wins, and replaces the entire field with its
`substitute` (§4.2). -/
def substituteRef (rules : List OverrideRule) (ref : String) : String :=
  match rules.find? (fun r => imageRepo ref == r.source) with
  | some r => r.substitute
  | none => ref

/-- Modelled from the spec: `ApplyOverride` (§4.2) — rewrite every
image-reference-bearing field of the tree (the kernel image, each init
entry, each onboot and services image field) through the override
rules. -/
def ApplyOverride (c : Config) : Config :=
  { c with
    kernel := { c.kernel with image := substituteRef c.overrides c.kernel.image }
    init := c.init.map (substituteRef c.overrides)
    onboot := c.onboot.map (fun i => { i with image := substituteRef c.overrides i.image })
    services := c.services.map (fun i => { i with image := substituteRef c.overrides i.image }) }

/-! ## Claim theorems -/

/-- C5: for every source container tar stream, prefix and archive writer,
`ImageTar` never writes an entry for any path in the fixed exclusion set:
an entry whose name is excluded contributes nothing to the output
archive, wherever it occurs in the stream — its bytes are read and
discarded. -/
theorem imageTar_never_writes_excluded
    (pfx : String) (l₁ l₂ : List TarEntry) (e : TarEntry)
    (h : exclude e.name = true) :
    imageTarEntries pfx (l₁ ++ e :: l₂) = imageTarEntries pfx (l₁ ++ l₂) := by
  induction l₁ with
  | nil => simp [imageTarEntries, h]
  | cons a t ih => simp [imageTarEntries, ih]

/-- Witness for C5: a `dev/console` entry is dropped from the archive. -/
theorem imageTar_never_writes_excluded_witness :
    imageTarEntries "p/" [⟨"dev/console", 0, 1, "x"⟩] = [] := by
  simpa [imageTarEntries] using
    imageTar_never_writes_excluded "p/" [] [] ⟨"dev/console", 0, 1, "x"⟩ (by decide)

/-- Every name with a replacement is one of the two table keys. -/
theorem replaceContent_ne_imp (n : String) (h : replaceContent n ≠ "") :
    n = "etc/hosts" ∨ n = "etc/resolv.conf" := by
  by_cases h1 : n = "etc/hosts"
  · exact Or.inl h1
  · by_cases h2 : n = "etc/resolv.conf"
    · exact Or.inr h2
    · exact absurd (by simp [replaceContent, h1, h2]) h

/-- Replacement-table names are not in the exclusion table. -/
theorem exclude_of_replaceContent (n : String) (h : replaceContent n ≠ "") :
    exclude n = false := by
  rcases replaceContent_ne_imp n h with h' | h' <;> subst h' <;> decide

/-- C6: for every source container tar stream and every entry whose path
is in the replacement set, `ImageTar` writes an entry carrying the fixed
canonical replacement content, with the header size set to the
replacement's length and the header name prefixed as usual — and never
the source entry's bytes, whatever the source entry's size or content
(`e.size` and `e.content` do not occur on the right-hand side). -/
theorem imageTar_replacement_always_written
    (pfx : String) (l₁ l₂ : List TarEntry) (e : TarEntry) (r : String)
    (hr : replaceContent e.name = r) (hne : r ≠ "") :
    imageTarEntries pfx (l₁ ++ e :: l₂) =
      imageTarEntries pfx l₁ ++
        { name := pfx ++ e.name, mode := e.mode, size := r.length,
          content := r } :: imageTarEntries pfx l₂ := by
  have hx : exclude e.name = false := exclude_of_replaceContent e.name (hr ▸ hne)
  induction l₁ with
  | nil => simp [imageTarEntries, hx, hr, hne]
  | cons a t ih =>
    simp only [List.cons_append, imageTarEntries]
    split
    · simpa using ih
    · split <;> simp [ih]

/-- Witness for C6: an `etc/hosts` entry of arbitrary content is emitted
with the canonical hosts content. -/
theorem imageTar_replacement_always_written_witness :
    imageTarEntries "p/" [⟨"etc/hosts", 0, 3, "xxx"⟩] =
      [⟨"p/etc/hosts", 0, etcHostsContent.length, etcHostsContent⟩] := by
  simpa [imageTarEntries] using
    imageTar_replacement_always_written "p/" [] [] ⟨"etc/hosts", 0, 3, "xxx"⟩
      etcHostsContent (by decide) (by decide)

/-- C7: in `ImageTar`, when container creation fails with an
image-not-found error (the error text contains `"No such image"`), the
image is pulled and creation retried exactly once — the trace is one
create, one pull, one create — and a pull or retry failure is surfaced
as a terminal error; a creation failure of any other kind is surfaced
immediately, with no pull and no retry. -/
theorem imageTar_pull_retry_once
    (img e pe e2 c : String) (pr : Except String Unit)
    (c2 : Except String String) :
    (goStringContains e "No such image" = true →
      imageTarCreatePhase img (.error e) (.error pe) c2 =
        (.error ("Could not pull image " ++ img ++ ": " ++ pe),
         [.create, .pull]) ∧
      imageTarCreatePhase img (.error e) (.ok ()) (.error e2) =
        (.error ("Failed to docker create image " ++ img ++ ": " ++ e2),
         [.create, .pull, .create]) ∧
      imageTarCreatePhase img (.error e) (.ok ()) (.ok c) =
        (.ok c, [.create, .pull, .create])) ∧
    (goStringContains e "No such image" = false →
      imageTarCreatePhase img (.error e) pr c2 =
        (.error ("Failed to create docker image " ++ img ++ ": " ++ e),
         [.create])) := by
  constructor <;> intro h <;> simp [imageTarCreatePhase, h]

/-- Witness for C7: a not-found failure followed by a successful pull and
retry yields the container with the one-pull-one-retry trace. -/
theorem imageTar_pull_retry_once_witness :
    imageTarCreatePhase "img" (.error "Error: No such image: img")
        (.ok ()) (.ok "c123") = (.ok "c123", [.create, .pull, .create]) := by
  exact ((imageTar_pull_retry_once "img" "Error: No such image: img" "" ""
    "c123" (.ok ()) (.ok "c123")).1 (by decide)).2.2

/-- C8: `ensureLinuxkitImage` returns success immediately, running no
build, exactly when all three sibling cache files (`stem-kernel`,
`stem-initrd.img`, `stem-cmdline`, the stem being derived from the hash
of the defining YAML by `imageFilename`) exist; if any one is missing
the check is not a hit, the build pipeline runs, and on success all
three files are rewritten. -/
theorem ensureLinuxkitImage_cache_semantics
    (hash : String → String) (mobyDir name : String)
    (build : String → Except String (String × String × String))
    (fs : String → Bool) :
    (cacheHit fs (imageFilename hash mobyDir name) = true ↔
      (fs (imageFilename hash mobyDir name ++ "-kernel") = true ∧
       fs (imageFilename hash mobyDir name ++ "-initrd.img") = true ∧
       fs (imageFilename hash mobyDir name ++ "-cmdline") = true)) ∧
    (cacheHit fs (imageFilename hash mobyDir name) = true →
      ensureLinuxkitImage hash mobyDir build fs name = (.ok fs, false)) ∧
    (cacheHit fs (imageFilename hash mobyDir name) = false →
      (ensureLinuxkitImage hash mobyDir build fs name).2 = true ∧
      ∀ k i c, build (linuxkitYaml name) = .ok (k, i, c) →
        ∃ fs2,
          ensureLinuxkitImage hash mobyDir build fs name = (.ok fs2, true) ∧
          fs2 (imageFilename hash mobyDir name ++ "-kernel") = true ∧
          fs2 (imageFilename hash mobyDir name ++ "-initrd.img") = true ∧
          fs2 (imageFilename hash mobyDir name ++ "-cmdline") = true) := by
  refine ⟨?_, ?_, ?_⟩
  · simp [cacheHit, and_assoc]
  · intro h
    simp [ensureLinuxkitImage, h]
  · intro h
    constructor
    · simp only [ensureLinuxkitImage, h]
      cases hb : build (linuxkitYaml name) <;> simp [hb]
    · intro k i c hb
      refine ⟨writeKernelInitrd fs (imageFilename hash mobyDir name),
        ?_, ?_, ?_, ?_⟩
      · simp [ensureLinuxkitImage, h, hb]
      · simp [writeKernelInitrd]
      · simp [writeKernelInitrd]
      · simp [writeKernelInitrd]

/-- Witness for C8: with no cache file present, the build runs and all
three files exist afterwards. -/
theorem ensureLinuxkitImage_cache_semantics_witness :
    (ensureLinuxkitImage (fun _ => "h") "/d" (fun _ => .ok ("k", "i", "c"))
        (fun _ => false) "mkimage").2 = true ∧
    ensureLinuxkitImage (fun _ => "h") "/d" (fun _ => .ok ("k", "i", "c"))
        (fun _ => true) "mkimage" = (.ok (fun _ => true), false) := by
  refine ⟨?_, ?_⟩
  · exact ((ensureLinuxkitImage_cache_semantics (fun _ => "h") "/d" "mkimage"
      (fun _ => .ok ("k", "i", "c")) (fun _ => false)).2.2 (by rfl)).1
  · exact (ensureLinuxkitImage_cache_semantics (fun _ => "h") "/d" "mkimage"
      (fun _ => .ok ("k", "i", "c")) (fun _ => true)).2.1 (by rfl)

/-- The validation pass never runs a converter. -/
theorem validateFormats_no_convert (env : OutputEnv) (fmts : List String) :
    ∀ f, OutEvent.converted f ∉ (validateFormatsRun env fmts).2 := by
  induction fmts with
  | nil => simp [validateFormatsRun]
  | cons o rest ih =>
    intro f
    simp only [validateFormatsRun]
    split
    · simp
    · have hens : ∀ g, OutEvent.converted g ∉ (ensurePrereqRun env o).2 := by
        intro g
        simp only [ensurePrereqRun]
        split
        · cases env.ensureImage (prereqTable o) <;> simp
        · simp
      cases hp : ensurePrereqRun env o with
      | mk res tr =>
        cases res with
        | error e => simpa [hp] using (by simpa [hp] using hens f)
        | ok u =>
          have h1 : OutEvent.converted f ∉ tr := by simpa [hp] using hens f
          simp only []
          intro hmem
          rcases List.mem_append.mp hmem with hmem | hmem
          · exact h1 hmem
          · exact ih f hmem

/-- When the requested list holds an unknown name, validation fails. -/
theorem validateFormats_unknown_error (env : OutputEnv) :
    ∀ (fmts : List String) (o : String), o ∈ fmts → knownFormat o = false →
      ∃ e, (validateFormatsRun env fmts).1 = .error e := by
  intro fmts
  induction fmts with
  | nil => intro o h; simp at h
  | cons a rest ih =>
    intro o hmem hunk
    simp only [validateFormatsRun]
    by_cases ha : knownFormat a
    · have hor : o ∈ rest := by
        rcases List.mem_cons.mp hmem with rfl | hm
        · exact absurd ha (by simp [hunk])
        · exact hm
      rcases ih o hor hunk with ⟨e, he⟩
      cases hp : ensurePrereqRun env a with
      | mk res tr =>
        cases res with
        | error e2 =>
          exact ⟨"Failed to set up format type " ++ a ++ ": " ++ e2,
            by simp [ha, hp]⟩
        | ok u => exact ⟨e, by simp [ha, hp, he]⟩
    · simp [ha]

/-- C9: whenever the requested format list contains a name with no
registered converter, `Formats` returns an error and no converter is
invoked for any name in the list — validation runs over the whole
requested set before the converter loop starts, so no partial converter
output is produced. -/
theorem formats_unknown_name_no_converter_runs
    (env : OutputEnv) (fmts : List String) (o : String)
    (hmem : o ∈ fmts) (hunk : knownFormat o = false) :
    (∃ e, (formatsRun env fmts).1 = .error e) ∧
    ∀ f, OutEvent.converted f ∉ (formatsRun env fmts).2 := by
  rcases validateFormats_unknown_error env fmts o hmem hunk with ⟨e, he⟩
  have hnc := validateFormats_no_convert env fmts
  cases hv : validateFormatsRun env fmts with
  | mk res tr =>
    cases res with
    | error e2 =>
      refine ⟨⟨e2, by simp [formatsRun, hv]⟩, ?_⟩
      intro f
      have : OutEvent.converted f ∉ tr := by simpa [hv] using hnc f
      simpa [formatsRun, hv] using this
    | ok u => rw [hv] at he; simp at he

/-- Witness for C9: the batch `["raw", "bogus"]` fails and runs no
converter. -/
theorem formats_unknown_name_no_converter_runs_witness :
    (∃ e, (formatsRun ⟨fun _ => .ok (), fun _ => .ok ()⟩
        ["raw", "bogus"]).1 = .error e) ∧
    ∀ f, OutEvent.converted f ∉ (formatsRun ⟨fun _ => .ok (), fun _ => .ok ()⟩
        ["raw", "bogus"]).2 := by
  exact formats_unknown_name_no_converter_runs ⟨fun _ => .ok (), fun _ => .ok ()⟩
    ["raw", "bogus"] "bogus" (by simp) (by decide)

/-- Dropping the last element of a list of length at least two leaves the
head unchanged. -/
theorem dropLast_get?_zero (l : List Char) (h : 2 ≤ l.length) :
    l.dropLast[0]? = l[0]? := by
  match l with
  | [] => simp at h
  | [a] => simp at h
  | a :: b :: t => simp

/-- C10: the prefix-writing step is not total at the path `"/"`: the
guard of `ImageTar` passes it through (it is non-empty and ends in `/`),
`tarPrefix` strips the trailing slash leaving the empty string and then
indexes its first byte, panicking with an index-out-of-range instead of
returning an error — while every other absolute path ending in `/`
receives the `path should be relative` error. -/
theorem tarPrefix_root_index_panic :
    tarPrefix "/" = .indexPanic ∧
    imageTarPrefixGuard "/" = false ∧
    (∀ s : String, 2 ≤ s.toList.length → s.toList[0]? = some '/' →
      s.toList.getLast? = some '/' →
      tarPrefix s = .err ("path should be relative: " ++
        s.toList.dropLast.asString)) := by
  refine ⟨by decide, by decide, ?_⟩
  intro s hlen h0 hl
  have hs : s ≠ "" := by
    intro h
    subst h
    simp [String.toList] at hlen
  have hp : (s.toList.dropLast.asString).toList[0]? = some '/' := by
    show s.toList.dropLast[0]? = some '/'
    rw [dropLast_get?_zero _ hlen, h0]
  have hp2 : s.data.dropLast.asString.data[0]? = some '/' := hp
  simp only [tarPrefix, hs, if_false, hl]
  simp [hp2]

/-- Witness for C10: the absolute path `"/abs/"` gets the relative-path
error that `"/"` never reaches. -/
theorem tarPrefix_root_index_panic_witness :
    tarPrefix "/abs/" = .err ("path should be relative: " ++
      "/abs/".toList.dropLast.asString) := by
  exact tarPrefix_root_index_panic.2.2 "/abs/" (by decide) (by decide) (by decide)

/-- A raw configuration whose single override object carries the key
`bogus`, named nowhere in the schema. -/
def overrideUnknownKeyInput : Json :=
  .obj [("overrides",
    .arr [.obj [("source", .str "foo/bar"), ("bogus", .str "x")]])]

/-- A raw configuration with an unknown top-level key. -/
def topUnknownKeyInput : Json := .obj [("bogus", .str "x")]

/-- A raw configuration with an unknown key inside an onboot image
object. -/
def imageUnknownKeyInput : Json :=
  .obj [("onboot",
    .arr [.obj [("name", .str "a"), ("image", .str "b"),
                ("bogus", .str "c")]])]

/-- C2 (code bug): the claim — every key not named in the schema is
rejected, and an override object admits exactly `source` and
`substitute` — fails on the code: the schema's `override` definition has
no `additionalProperties: false` (and names `destination`/`source`, not
`substitute`), so a configuration whose override object carries the
unknown key `bogus` validates, while unknown keys at the top level and
in an image object are rejected, as the claim says. -/
theorem schema_override_object_not_closed :
    validateMobyConfig overrideUnknownKeyInput = true ∧
    validateMobyConfig topUnknownKeyInput = false ∧
    validateMobyConfig imageUnknownKeyInput = false := by
  refine ⟨rfl, rfl, rfl⟩

/-- C1: in synthesis, for every mergeable field the YAML value wins
whenever the YAML explicitly declares the field (the label's entire value
for that field is discarded — field-level override, no element-level
union); when the YAML omits it, the label fragment's value is used; when
both omit it, the built-in default applies.  In particular, YAML
capabilities `["CAP_SYS_ADMIN"]` with label capabilities
`["CAP_SYS_CHROOT"]` yield `["CAP_SYS_ADMIN"]`, and an absent YAML cwd
with label cwd `/label/directory` yields `/label/directory`. -/
theorem synthesis_yaml_over_label_precedence :
    (∀ (yaml label : Image) (spec : OCIProcess),
      ConfigInspectToOCI yaml label = .ok spec →
      (∀ v, yaml.capabilities = some v → spec.capabilities = v) ∧
      (∀ v, yaml.capabilities = none → label.capabilities = some v →
        spec.capabilities = v) ∧
      (yaml.capabilities = none → label.capabilities = none →
        spec.capabilities = defaultCapabilities) ∧
      (yaml.cwd ≠ "" → spec.cwd = yaml.cwd) ∧
      (yaml.cwd = "" → label.cwd ≠ "" → spec.cwd = label.cwd) ∧
      (yaml.cwd = "" → label.cwd = "" → spec.cwd = "/") ∧
      (∀ v, yaml.env = some v → spec.env = v) ∧
      (∀ v, yaml.env = none → label.env = some v → spec.env = v) ∧
      (∀ v, yaml.command = some v → spec.args = v) ∧
      (∀ v, yaml.command = none → label.command = some v → spec.args = v)) ∧
    ConfigInspectToOCI
      { name := "test", image := "testimage",
        capabilities := some ["CAP_SYS_ADMIN"] }
      { capabilities := some ["CAP_SYS_CHROOT"], cwd := "/label/directory" } =
      .ok { cwd := "/label/directory", capabilities := ["CAP_SYS_ADMIN"],
            env := [], args := [] } := by
  constructor
  · intro yaml label spec h
    rcases hf : (mergeOpt yaml.capabilities label.capabilities
        defaultCapabilities).find? (fun c => !(ociCapabilities.contains c))
      with _ | bad
    · simp only [ConfigInspectToOCI] at h
      rw [hf] at h
      simp only [Except.ok.injEq] at h
      subst h
      refine ⟨?_, ?_, ?_, ?_, ?_, ?_, ?_, ?_, ?_, ?_⟩
      · intro v hv; simp [mergeOpt, hv]
      · intro v hy hl; simp [mergeOpt, hy, hl]
      · intro hy hl; simp [mergeOpt, hy, hl]
      · intro h1; simp [mergeString, h1]
      · intro h1 h2; simp [mergeString, h1, h2]
      · intro h1 h2; simp [mergeString, h1, h2]
      · intro v hv; simp [mergeOpt, hv]
      · intro v hy hl; simp [mergeOpt, hy, hl]
      · intro v hv; simp [mergeOpt, hv]
      · intro v hy hl; simp [mergeOpt, hy, hl]
    · simp only [ConfigInspectToOCI] at h
      rw [hf] at h
      simp at h
  · rfl

/-- Witness for C1: applying the precedence theorem at the test inputs of
`TestOverrides`. -/
theorem synthesis_yaml_over_label_precedence_witness :
    (OCIProcess.mk "/label/directory" ["CAP_SYS_ADMIN"] [] []).capabilities =
      ["CAP_SYS_ADMIN"] ∧
    (OCIProcess.mk "/label/directory" ["CAP_SYS_ADMIN"] [] []).cwd =
      "/label/directory" := by
  have h := (synthesis_yaml_over_label_precedence.1
    { name := "test", image := "testimage",
      capabilities := some ["CAP_SYS_ADMIN"] }
    { capabilities := some ["CAP_SYS_CHROOT"], cwd := "/label/directory" }
    (OCIProcess.mk "/label/directory" ["CAP_SYS_ADMIN"] [] []) (by rfl))
  exact ⟨h.1 ["CAP_SYS_ADMIN"] rfl, h.2.2.2.2.1 rfl (by decide)⟩

/-- C3: whenever the effective capability list of an image — whichever of
the YAML or the label supplied it — contains a string outside the
recognized OCI capability set, synthesis fails with an error naming the
image and an offending string, and no runtime spec is returned. -/
theorem synthesis_invalid_capability_fails
    (yaml label : Image) (s : String)
    (hmem : s ∈ mergeOpt yaml.capabilities label.capabilities
      defaultCapabilities)
    (hbad : ociCapabilities.contains s = false) :
    ∃ bad,
      bad ∈ mergeOpt yaml.capabilities label.capabilities defaultCapabilities ∧
      ociCapabilities.contains bad = false ∧
      ConfigInspectToOCI yaml label = .error (yaml.name, bad) := by
  rcases hf : (mergeOpt yaml.capabilities label.capabilities
      defaultCapabilities).find? (fun c => !(ociCapabilities.contains c))
    with _ | bad
  · exfalso
    have hall := List.find?_eq_none.mp hf s hmem
    simp at hall
    exact (by simpa using hbad : s ∉ ociCapabilities) hall
  · refine ⟨bad, List.mem_of_find?_eq_some hf, ?_, ?_⟩
    · simpa using List.find?_some hf
    · simp only [ConfigInspectToOCI]
      rw [hf]

/-- Witness for C3: the `TestInvalidCap` inputs — a label-supplied
`NOT_A_CAP` — make synthesis fail with an error naming the image. -/
theorem synthesis_invalid_capability_fails_witness :
    ∃ bad,
      bad ∈ mergeOpt (none : Option (List String)) (some ["NOT_A_CAP"])
        defaultCapabilities ∧
      ociCapabilities.contains bad = false ∧
      ConfigInspectToOCI { name := "test", image := "testimage" }
        { capabilities := some ["NOT_A_CAP"] } = .error ("test", bad) := by
  exact synthesis_invalid_capability_fails
    { name := "test", image := "testimage" }
    { capabilities := some ["NOT_A_CAP"] } "NOT_A_CAP" (by decide) (by decide)

/-- Unfolding `substituteRef` by one rule. -/
theorem substituteRef_cons (a : OverrideRule) (rest : List OverrideRule)
    (ref : String) :
    substituteRef (a :: rest) ref =
      if imageRepo ref = a.source then a.substitute
      else substituteRef rest ref := by
  by_cases h : imageRepo ref = a.source <;>
    simp [substituteRef, List.find?_cons, h]

/-- The configuration of `TestApplyOverride`. -/
def testOverrideConfig : Config :=
  { kernel := { image := "foo/bar:foo" }
    init := ["foo/bar:foo"]
    onboot := [{ name := "foo", image := "foo/bar:foo" }]
    overrides := [{ source := "foo/bar", substitute := "foo/bar:quux" }] }

/-- C4: `ApplyOverride` replaces each image-reference-bearing field of
the tree (kernel image, init entries, onboot and services image fields)
whose repository component equals a rule's `Source` with the literal
`Substitute` — a total replacement, tag and digest included — the first
matching rule winning; fields matching no rule are unchanged.  On the
`TestApplyOverride` configuration, all three references become
`foo/bar:quux`. -/
theorem applyOverride_repository_substitution :
    (∀ (rules₁ rules₂ : List OverrideRule) (r : OverrideRule) (ref : String),
      (∀ r' ∈ rules₁, imageRepo ref ≠ r'.source) → imageRepo ref = r.source →
      substituteRef (rules₁ ++ r :: rules₂) ref = r.substitute) ∧
    (∀ (rules : List OverrideRule) (ref : String),
      (∀ r' ∈ rules, imageRepo ref ≠ r'.source) →
      substituteRef rules ref = ref) ∧
    (∀ c : Config,
      (ApplyOverride c).kernel.image = substituteRef c.overrides c.kernel.image ∧
      (ApplyOverride c).init = c.init.map (substituteRef c.overrides) ∧
      (ApplyOverride c).onboot.map Image.image =
        c.onboot.map (fun i => substituteRef c.overrides i.image) ∧
      (ApplyOverride c).services.map Image.image =
        c.services.map (fun i => substituteRef c.overrides i.image)) ∧
    ((ApplyOverride testOverrideConfig).kernel.image = "foo/bar:quux" ∧
     (ApplyOverride testOverrideConfig).init = ["foo/bar:quux"] ∧
     (ApplyOverride testOverrideConfig).onboot.map Image.image =
       ["foo/bar:quux"]) := by
  refine ⟨?_, ?_, ?_, by decide, by decide, by decide⟩
  · intro rules₁
    induction rules₁ with
    | nil =>
      intro rules₂ r ref _ hm
      simp [substituteRef_cons, hm]
    | cons a t ih =>
      intro rules₂ r ref hnone hm
      rw [List.cons_append, substituteRef_cons,
        if_neg (hnone a (List.mem_cons_self a t))]
      exact ih rules₂ r ref (fun r' hr' => hnone r' (List.mem_cons_of_mem a hr')) hm
  · intro rules ref
    induction rules with
    | nil => intro _; simp [substituteRef]
    | cons a t ih =>
      intro hnone
      rw [substituteRef_cons, if_neg (hnone a (List.mem_cons_self a t))]
      exact ih (fun r' hr' => hnone r' (List.mem_cons_of_mem a hr'))
  · intro c
    refine ⟨rfl, rfl, ?_, ?_⟩ <;> simp [ApplyOverride, List.map_map, Function.comp]

/-- Witness for C4: the single test rule replaces `foo/bar:foo` (tag
included) with `foo/bar:quux`. -/
theorem applyOverride_repository_substitution_witness :
    substituteRef [{ source := "foo/bar", substitute := "foo/bar:quux" }]
      "foo/bar:foo" = "foo/bar:quux" := by
  have h := applyOverride_repository_substitution.1 [] []
    { source := "foo/bar", substitute := "foo/bar:quux" } "foo/bar:foo"
    (by simp) (by decide)
  simpa using h

end MobyTool
